import Mathlib

/-!
Verification of the bounded-latency OCR pipeline core
(`enhanced_ocr_classes.py`, `complete_discord_ocr_integration.py`,
`discord_screenshare_ocr.py`).

Python floats are modelled as rationals (`ℚ`): every constant in the
source (0.95, 0.9, 0.1, thresholds 70/80/40, 1.0, 2.0, 3.0) is exactly
representable, and the claims' formulas are exact rational identities.
Python dicts (insertion-ordered, unique keys) are modelled as
association lists ordered oldest-first.
-/

namespace DiscordOCR

/-! ## Engine selection (`IntegratedDiscordOCRSystem._main_processing_loop`) -/

/-- The three recognition strategies the main loop can dispatch to. -/
inductive EngineChoice
  | fast
  | main
  | discord
deriving DecidableEq, Repr

/-- Engine dispatch from `_main_processing_loop` (lines 569-582):
`cpu_usage > 70` picks the fast engine, else `avg_processing_time < 1.0`
picks the main engine, else the Discord-optimized engine. -/
def choose_ocr_engine (cpu_usage avg_processing_time : ℚ) : EngineChoice :=
  if cpu_usage > 70 then EngineChoice.fast
  else if avg_processing_time < 1 then EngineChoice.main
  else EngineChoice.discord

/-! ## PerformanceMonitor (`complete_discord_ocr_integration.py`) -/

/-- The OCR-related fields of `PerformanceMonitor.metrics`. -/
structure OcrMetrics where
  ocr_success_rate : ℚ
  avg_processing_time : ℚ
  frames_processed : ℕ
  frames_skipped : ℕ
  error_count : ℕ
deriving DecidableEq, Repr

/-- `PerformanceMonitor.update_ocr_metrics` (lines 147-165). -/
def update_ocr_metrics (m : OcrMetrics) (processing_time : ℚ) (success : Bool) :
    OcrMetrics :=
  if success then
    { m with
      frames_processed := m.frames_processed + 1
      ocr_success_rate := m.ocr_success_rate * (95/100) + 100 * (5/100)
      avg_processing_time := m.avg_processing_time * (9/10) + processing_time * (1/10) }
  else
    { m with
      frames_processed := m.frames_processed + 1
      frames_skipped := m.frames_skipped + 1
      error_count := m.error_count + 1
      ocr_success_rate := m.ocr_success_rate * (95/100) }

/-! ## AdaptiveOCRController (`complete_discord_ocr_integration.py`) -/

/-- The mutable fields of `AdaptiveOCRController`. -/
structure AdaptiveOCRController where
  current_interval : ℚ
  min_interval : ℚ
  max_interval : ℚ
  adjustment_factor : ℚ
deriving DecidableEq, Repr

/-- The constants set in `AdaptiveOCRController.__init__`. -/
def AdaptiveOCRController.start : AdaptiveOCRController :=
  { current_interval := 2, min_interval := 1/2, max_interval := 10
    adjustment_factor := 1/10 }

/-- The `adjustments` value returned by `adjust_parameters` (only the
`suggested_timeout` key carries control content; the interval keys echo
`current_interval`). -/
structure Adjustments where
  suggested_timeout : ℚ
deriving DecidableEq, Repr

/-- `AdaptiveOCRController.adjust_parameters` (lines 203-225): interval
is multiplied by `1 + factor` and clamped to `max_interval` when
`cpu_usage > 80`, multiplied by `1 - factor` and clamped to
`min_interval` when `cpu_usage < 40` and there is room, else left
alone; independently `suggested_timeout` is `avg + 1` when `avg > 2`,
else `3`. -/
def adjust_parameters (c : AdaptiveOCRController) (cpu_usage avg_processing_time : ℚ) :
    AdaptiveOCRController × Adjustments :=
  let grown := min (c.current_interval * (1 + c.adjustment_factor)) c.max_interval
  let shrunk := max (c.current_interval * (1 - c.adjustment_factor)) c.min_interval
  let c2 :=
    if cpu_usage > 80 then { c with current_interval := grown }
    else if cpu_usage < 40 ∧ c.current_interval > c.min_interval then
      { c with current_interval := shrunk }
    else c
  let t := if avg_processing_time > 2 then avg_processing_time + 1 else 3
  (c2, { suggested_timeout := t })

/-- Iterated adjustment over a sequence of (cpu, avg) snapshots. -/
def adjust_seq (c : AdaptiveOCRController) : List (ℚ × ℚ) → AdaptiveOCRController
  | [] => c
  | s :: rest => adjust_seq (adjust_parameters c s.1 s.2).1 rest

/-! ## Theorems: C2, C4, C5 -/

/-- C2: engine selection follows strict precedence on one metrics
snapshot: `cpuUsage > 70` yields the fast engine regardless of the
average; otherwise `avg < 1.0` yields the main engine; otherwise the
Discord-optimized engine. The three concrete cases of the spec hold. -/
theorem engine_selection_precedence (cpu avg : ℚ) :
    (cpu > 70 → choose_ocr_engine cpu avg = EngineChoice.fast) ∧
    (cpu ≤ 70 → avg < 1 → choose_ocr_engine cpu avg = EngineChoice.main) ∧
    (cpu ≤ 70 → 1 ≤ avg → choose_ocr_engine cpu avg = EngineChoice.discord) ∧
    choose_ocr_engine 75 avg = EngineChoice.fast ∧
    choose_ocr_engine 50 (1/2) = EngineChoice.main ∧
    choose_ocr_engine 50 (5/2) = EngineChoice.discord := by
  unfold choose_ocr_engine
  refine ⟨fun h => ?_, fun h h2 => ?_, fun h h2 => ?_, ?_, ?_, ?_⟩ <;>
    split_ifs <;> first | rfl | linarith

theorem engine_selection_precedence_witness :
    choose_ocr_engine 75 3 = EngineChoice.fast ∧
    choose_ocr_engine 50 (1/2) = EngineChoice.main ∧
    choose_ocr_engine 50 (5/2) = EngineChoice.discord :=
  ⟨(engine_selection_precedence 75 3).1 (by norm_num),
   (engine_selection_precedence 50 (1/2)).2.1 (by norm_num) (by norm_num),
   (engine_selection_precedence 50 (5/2)).2.2.1 (by norm_num) (by norm_num)⟩

/-- C4: the EWMA rules of `update_ocr_metrics`: on success
`rate' = rate*0.95 + 100*0.05` and `avg' = avg*0.9 + elapsed*0.1`; on
failure `rate' = rate*0.95` and the latency average is untouched; and
one success with elapsed 2.0 from baseline avg 1.0 gives 1.1 exactly
(hence within 1e-6). -/
theorem performance_tracker_ewma (m : OcrMetrics) (t : ℚ) :
    (update_ocr_metrics m t true).ocr_success_rate
        = m.ocr_success_rate * (95/100) + 100 * (5/100) ∧
    (update_ocr_metrics m t true).avg_processing_time
        = m.avg_processing_time * (9/10) + t * (1/10) ∧
    (update_ocr_metrics m t false).ocr_success_rate
        = m.ocr_success_rate * (95/100) ∧
    (update_ocr_metrics m t false).avg_processing_time
        = m.avg_processing_time ∧
    |(update_ocr_metrics { m with avg_processing_time := 1 } 2 true).avg_processing_time
        - 11/10| ≤ 1/1000000 := by
  refine ⟨rfl, rfl, rfl, rfl, ?_⟩
  show |(1 : ℚ) * (9/10) + 2 * (1/10) - 11/10| ≤ 1/1000000
  norm_num

/-- C5: `adjust_parameters` updates the interval by exactly one of three
cases (grow by `1+k` clamped above when cpu > 80; shrink by `1-k`
clamped below when cpu < 40 with room; else unchanged, with k = 0.1 in
the constructed controller), and independently recommends deadline
`avg + 1` when `avg > 2`, else the fixed 3.0. -/
theorem adaptive_controller_adjust (c : AdaptiveOCRController) (cpu avg : ℚ) :
    (cpu > 80 → (adjust_parameters c cpu avg).1.current_interval
        = min (c.current_interval * (1 + c.adjustment_factor)) c.max_interval) ∧
    (cpu ≤ 80 → cpu < 40 → c.min_interval < c.current_interval →
      (adjust_parameters c cpu avg).1.current_interval
        = max (c.current_interval * (1 - c.adjustment_factor)) c.min_interval) ∧
    (cpu ≤ 80 → ¬ (cpu < 40 ∧ c.min_interval < c.current_interval) →
      (adjust_parameters c cpu avg).1.current_interval = c.current_interval) ∧
    (avg > 2 → (adjust_parameters c cpu avg).2.suggested_timeout = avg + 1) ∧
    (avg ≤ 2 → (adjust_parameters c cpu avg).2.suggested_timeout = 3) ∧
    AdaptiveOCRController.start.adjustment_factor = 1/10 ∧
    (adjust_parameters AdaptiveOCRController.start 90 0).1.current_interval = 11/5 ∧
    (adjust_parameters AdaptiveOCRController.start 20 0).1.current_interval = 9/5 := by
  refine ⟨fun h => ?_, fun h h2 h3 => ?_, fun h h2 => ?_, fun h => ?_, fun h => ?_,
    rfl, ?_, ?_⟩
  · simp only [adjust_parameters]
    rw [if_pos h]
  · simp only [adjust_parameters]
    rw [if_neg (not_lt.mpr h), if_pos ⟨h2, h3⟩]
  · simp only [adjust_parameters]
    rw [if_neg (not_lt.mpr h), if_neg h2]
  · simp only [adjust_parameters]
    rw [if_pos h]
  · simp only [adjust_parameters]
    rw [if_neg (not_lt.mpr h)]
  · norm_num [adjust_parameters, AdaptiveOCRController.start]
  · norm_num [adjust_parameters, AdaptiveOCRController.start]

theorem adaptive_controller_adjust_witness :
    (adjust_parameters AdaptiveOCRController.start 90 0).1.current_interval
      = min (2 * (1 + 1/10)) 10 ∧
    (adjust_parameters AdaptiveOCRController.start 20 0).1.current_interval
      = max (2 * (1 - 1/10)) (1/2) ∧
    (adjust_parameters AdaptiveOCRController.start 50 (5/2)).2.suggested_timeout
      = 5/2 + 1 ∧
    (adjust_parameters AdaptiveOCRController.start 50 1).2.suggested_timeout = 3 :=
  ⟨(adaptive_controller_adjust AdaptiveOCRController.start 90 0).1 (by norm_num),
   (adaptive_controller_adjust AdaptiveOCRController.start 20 0).2.1
      (by norm_num) (by norm_num) (by norm_num [AdaptiveOCRController.start]),
   (adaptive_controller_adjust AdaptiveOCRController.start 50 (5/2)).2.2.2.1 (by norm_num),
   (adaptive_controller_adjust AdaptiveOCRController.start 50 1).2.2.2.2.1 (by norm_num)⟩

/-! ## WorkingFastScreenOCR result cache (`enhanced_ocr_classes.py`) -/

/-- `text_cache`: a Python dict from image hash to text, modelled as an
association list in insertion order, oldest first (Python dicts preserve
insertion order; re-assigning an existing key keeps its position; keys
are unique). -/
abbrev TextCache := List (Int × String)

def cacheKeys (c : TextCache) : List Int := c.map Prod.fst

/-- `image_hash in self.text_cache`. -/
def cacheMember (c : TextCache) (k : Int) : Bool := c.any fun p => p.1 = k

/-- `self.text_cache.get(image_hash, "")` for an integer hash. -/
def cacheGet (c : TextCache) (k : Int) : String :=
  ((c.find? fun p => p.1 = k).map Prod.snd).getD ""

/-- `self.text_cache.get(image_hash, "")`; a `None` hash is never a key. -/
def cacheGetOpt (c : TextCache) : Option Int → String
  | some k => cacheGet c k
  | none => ""

/-- `self.text_cache[image_hash] = result`: overwrite in place when the
key exists (keeping its insertion position), else append as newest. -/
def dictAssign (c : TextCache) (k : Int) (v : String) : TextCache :=
  if cacheMember c k then c.map fun p => if p.1 = k then (k, v) else p
  else c ++ [(k, v)]

/-- Lines 248-255 of `fast_ocr`: assign, then when strictly over
capacity delete the oldest inserted key
(`list(self.text_cache.keys())[0]`), the head of the list. -/
def cacheStore (cache_size : ℕ) (c : TextCache) (k : Int) (v : String) : TextCache :=
  let c2 := dictAssign c k v
  if c2.length > cache_size then c2.tail else c2

/-- Python truthiness of `image_hash` (`None` and `0` are falsy). -/
def hashTruthy : Option Int → Bool
  | none => false
  | some k => k ≠ 0

/-- `WorkingFastScreenOCR._is_similar_to_cached` (lines 223-233). -/
def is_similar_to_cached (c : TextCache) (current_hash : Option Int) : Bool :=
  if ¬ hashTruthy current_hash ∨ c.isEmpty then false
  else match current_hash with
    | some k => cacheMember c k
    | none => false

structure FastOcrState where
  cache_size : ℕ
  text_cache : TextCache
deriving DecidableEq, Repr

/-- `WorkingFastScreenOCR.fast_ocr` (lines 235-257). `image_hash` is the
value `_calculate_image_hash` returned (`none` when it raised);
`ocr_result` stands for what `ocr_with_timeout` returns on this frame
(the empty string on timeout, error, or a text-free frame). -/
def fast_ocr (s : FastOcrState) (image_hash : Option Int) (ocr_result : String)
    (force_process : Bool) : String × FastOcrState :=
  if ¬ force_process ∧ is_similar_to_cached s.text_cache image_hash then
    (cacheGetOpt s.text_cache image_hash, s)
  else
    match image_hash with
    | some k =>
        if k ≠ 0 ∧ ocr_result ≠ "" then
          (ocr_result,
            { s with text_cache := cacheStore s.cache_size s.text_cache k ocr_result })
        else (ocr_result, s)
    | none => (ocr_result, s)

/-! ### Cache lemmas -/

theorem cacheMember_iff {c : TextCache} {k : Int} :
    cacheMember c k = true ↔ k ∈ cacheKeys c := by
  simp [cacheMember, cacheKeys, List.any_eq_true, List.mem_map]

theorem cacheStore_length_le {C : ℕ} {c : TextCache} {k : Int} {v : String}
    (h : c.length ≤ C) : (cacheStore C c k v).length ≤ C := by
  have hlen : (dictAssign c k v).length ≤ c.length + 1 := by
    unfold dictAssign
    split_ifs <;> simp
  simp only [cacheStore]
  split_ifs with hover
  · have := List.length_tail (dictAssign c k v)
    omega
  · omega

theorem mem_cacheStore {C : ℕ} {c : TextCache} {k : Int} {v : String} {p : Int × String}
    (h : p ∈ cacheStore C c k v) : p ∈ c ∨ p = (k, v) := by
  have hda : p ∈ dictAssign c k v → p ∈ c ∨ p = (k, v) := by
    unfold dictAssign
    split_ifs with hm
    · intro hp
      obtain ⟨q, hq, hqe⟩ := List.mem_map.mp hp
      by_cases hk : q.1 = k
      · right; rw [if_pos hk] at hqe; exact hqe.symm
      · left; rw [if_neg hk] at hqe; exact hqe ▸ hq
    · intro hp
      rcases List.mem_append.mp hp with h1 | h1
      · exact Or.inl h1
      · exact Or.inr (List.mem_singleton.mp h1)
  simp only [cacheStore] at h
  split_ifs at h with hover
  · exact hda (List.mem_of_mem_tail h)
  · exact hda h

/-- Filling without overflow: folding distinct fresh keys into a cache
with enough room just appends them in order, with no eviction. -/
theorem cacheStore_foldl_fill (C : ℕ) (v : Int → String) :
    ∀ (ks : List Int) (c : TextCache), (cacheKeys c ++ ks).Nodup →
      c.length + ks.length ≤ C →
      ks.foldl (fun a k => cacheStore C a k (v k)) c = c ++ ks.map fun k => (k, v k)
  | [], c, _, _ => by simp
  | k :: t, c, hnd, hle => by
    have hkc : k ∉ cacheKeys c := by
      have hdisj := (List.nodup_append.mp hnd).2.2
      exact fun hk => hdisj hk (List.mem_cons_self k t)
    have hmem : cacheMember c k = false := by
      rw [← Bool.not_eq_true, cacheMember_iff]; exact hkc
    have hlc : c.length + 1 ≤ C := by
      have hct : (k :: t).length = t.length + 1 := List.length_cons k t
      omega
    have hda : dictAssign c k (v k) = c ++ [(k, v k)] := by
      unfold dictAssign
      rw [if_neg (by simp [hmem])]
    have hstep : cacheStore C c k (v k) = c ++ [(k, v k)] := by
      have hnot : ¬ (c ++ [(k, v k)]).length > C := by
        simp only [List.length_append, List.length_singleton]
        omega
      simp only [cacheStore, hda]
      rw [if_neg hnot]
    have hnd2 : (cacheKeys (c ++ [(k, v k)]) ++ t).Nodup := by
      have hkeys : cacheKeys (c ++ [(k, v k)]) ++ t = cacheKeys c ++ (k :: t) := by
        simp [cacheKeys]
      rw [hkeys]; exact hnd
    have hle2 : (c ++ [(k, v k)]).length + t.length ≤ C := by
      have hca : (c ++ [(k, v k)]).length = c.length + 1 := by simp
      have hct : (k :: t).length = t.length + 1 := List.length_cons k t
      omega
    calc (k :: t).foldl (fun a k => cacheStore C a k (v k)) c
        = t.foldl (fun a k => cacheStore C a k (v k)) (c ++ [(k, v k)]) := by
          rw [List.foldl_cons, hstep]
      _ = (c ++ [(k, v k)]) ++ t.map (fun k => (k, v k)) :=
          cacheStore_foldl_fill C v t (c ++ [(k, v k)]) hnd2 hle2
      _ = c ++ (k :: t).map fun k => (k, v k) := by simp

/-! ### Theorems: C3, C9 -/

/-- C3: the result cache is strict FIFO with bounded capacity: any
store keeps the size at most C; storing C+1 distinct fingerprints from
empty leaves exactly the C most-recently-inserted keys (the single
oldest evicted); and a cache lookup (the cache-hit path of `fast_ocr`)
never mutates the cache or the eviction order. -/
theorem result_cache_fifo (C : ℕ) (ks : List Int) (v : Int → String)
    (hnd : ks.Nodup) (hlen : ks.length = C + 1) :
    (∀ (c : TextCache) (k : Int) (t : String), c.length ≤ C →
        (cacheStore C c k t).length ≤ C) ∧
    cacheKeys (ks.foldl (fun a k => cacheStore C a k (v k)) []) = ks.tail ∧
    (∀ (s : FastOcrState) (h : Option Int) (r : String),
        is_similar_to_cached s.text_cache h = true → (fast_ocr s h r false).2 = s) := by
  refine ⟨fun c k t h => cacheStore_length_le h, ?_, fun s h r hsim => ?_⟩
  · have hne : ks ≠ [] := by intro h; rw [h] at hlen; simp at hlen
    have heq : ks.dropLast ++ [ks.getLast hne] = ks := List.dropLast_append_getLast hne
    set init := ks.dropLast with hinit
    set b := ks.getLast hne with hb
    have hlinit : init.length = C := by
      have hdl : init.length = ks.length - 1 := by
        rw [hinit]; exact List.length_dropLast ks
      omega
    have hndinit : init.Nodup := List.Nodup.sublist (List.dropLast_sublist ks) hnd
    have hbinit : b ∉ init := by
      have hnd2 : (init ++ [b]).Nodup := heq ▸ hnd
      have hdisj := (List.nodup_append.mp hnd2).2.2
      exact fun hbin => hdisj hbin (List.mem_singleton_self b)
    have hfill : init.foldl (fun a k => cacheStore C a k (v k)) []
        = init.map fun k => (k, v k) := by
      have hres := cacheStore_foldl_fill C v init [] (by simpa [cacheKeys] using hndinit)
        (by simp [hlinit])
      simpa using hres
    have hsplit : ks.foldl (fun a k => cacheStore C a k (v k)) []
        = cacheStore C (init.map fun k => (k, v k)) b (v b) := by
      conv_lhs => rw [← heq]
      rw [List.foldl_append, hfill]
      rfl
    have hmem : cacheMember (init.map fun k => (k, v k)) b = false := by
      rw [← Bool.not_eq_true, cacheMember_iff]
      simpa [cacheKeys, List.map_map] using hbinit
    have hda2 : dictAssign (init.map fun k => (k, v k)) b (v b)
        = (init.map fun k => (k, v k)) ++ [(b, v b)] := by
      unfold dictAssign
      rw [if_neg (by simp [hmem])]
    have hstore : cacheStore C (init.map fun k => (k, v k)) b (v b)
        = ((init.map fun k => (k, v k)) ++ [(b, v b)]).tail := by
      have hgt : ((init.map fun k => (k, v k)) ++ [(b, v b)]).length > C := by
        simp only [List.length_append, List.length_map, List.length_singleton]
        omega
      simp only [cacheStore, hda2]
      rw [if_pos hgt]
    rw [hsplit, hstore, ← heq]
    cases init with
    | nil => simp [cacheKeys]
    | cons a as => simp [cacheKeys, List.map_map, Function.comp_def]
  · unfold fast_ocr
    rw [if_pos ⟨by simp, hsim⟩]

theorem result_cache_fifo_witness :
    cacheKeys ([1, 2, 3].foldl (fun a k => cacheStore 2 a k "x") []) = [2, 3] :=
  (result_cache_fifo 2 [1, 2, 3] (fun _ => "x") (by decide) (by decide)).2.1

/-- C9: the fast-path cache never stores an empty result: when every
cached value is non-empty, it stays so after `fast_ocr`; the cache is
mutated only when the hash is non-None and the result non-empty; and an
empty extraction result leaves the cache untouched (so the same
fingerprint is retried next time). -/
theorem fast_ocr_cache_nonempty (s : FastOcrState) (h : Option Int) (r : String)
    (f : Bool) (hinv : ∀ p ∈ s.text_cache, p.2 ≠ "") :
    (∀ p ∈ (fast_ocr s h r f).2.text_cache, p.2 ≠ "") ∧
    ((fast_ocr s h r f).2 ≠ s → h ≠ none ∧ r ≠ "") ∧
    (r = "" → (fast_ocr s h r f).2 = s) := by
  unfold fast_ocr
  split_ifs with hhit
  · exact ⟨hinv, fun hne => absurd rfl hne, fun _ => rfl⟩
  · cases h with
    | none => exact ⟨hinv, fun hne => absurd rfl hne, fun _ => rfl⟩
    | some k =>
        simp only []
        split_ifs with hcond
        · refine ⟨fun p hp => ?_, fun _ => ⟨by simp, hcond.2⟩, fun hr => absurd hr hcond.2⟩
          rcases mem_cacheStore hp with hin | hpe
          · exact hinv p hin
          · rw [hpe]; exact hcond.2
        · exact ⟨hinv, fun hne => absurd rfl hne, fun _ => rfl⟩

theorem fast_ocr_cache_nonempty_witness :
    (some 5 : Option Int) ≠ none ∧ "hello" ≠ "" :=
  (fast_ocr_cache_nonempty ⟨50, []⟩ (some 5) "hello" false (by simp)).2.1 (by decide)

/-! ### Controller invariant lemmas and theorems: C6 -/

theorem adjust_parameters_fields (c : AdaptiveOCRController) (cpu avg : ℚ) :
    (adjust_parameters c cpu avg).1.min_interval = c.min_interval ∧
    (adjust_parameters c cpu avg).1.max_interval = c.max_interval ∧
    (adjust_parameters c cpu avg).1.adjustment_factor = c.adjustment_factor := by
  simp only [adjust_parameters]
  split_ifs <;> exact ⟨rfl, rfl, rfl⟩

theorem adjust_parameters_interval_bounds (c : AdaptiveOCRController) (cpu avg : ℚ)
    (hmin0 : 0 ≤ c.min_interval) (hmm : c.min_interval ≤ c.max_interval)
    (hk0 : 0 ≤ c.adjustment_factor)
    (hlo : c.min_interval ≤ c.current_interval)
    (hhi : c.current_interval ≤ c.max_interval) :
    c.min_interval ≤ (adjust_parameters c cpu avg).1.current_interval ∧
    (adjust_parameters c cpu avg).1.current_interval ≤ c.max_interval := by
  have hi0 : 0 ≤ c.current_interval := le_trans hmin0 hlo
  have hik : 0 ≤ c.current_interval * c.adjustment_factor := mul_nonneg hi0 hk0
  simp only [adjust_parameters]
  split_ifs with h1 h2
  · exact ⟨le_min (by nlinarith) hmm, min_le_right _ _⟩
  · exact ⟨le_max_right _ _, max_le (by nlinarith) hmm⟩
  · exact ⟨hlo, hhi⟩

/-- C6 (amended): under any sequence of metric snapshots the interval
stays inside the configured `[min_interval, max_interval]` once it
starts there (with nonnegative bounds and adjustment factor, as
configured); the recommended deadline is bounded below by the default
3.0 but is not clamped to any configured range. -/
theorem control_parameters_interval_invariant (c : AdaptiveOCRController)
    (snaps : List (ℚ × ℚ)) (cpu avg : ℚ)
    (hmin0 : 0 ≤ c.min_interval) (hmm : c.min_interval ≤ c.max_interval)
    (hk0 : 0 ≤ c.adjustment_factor)
    (hlo : c.min_interval ≤ c.current_interval)
    (hhi : c.current_interval ≤ c.max_interval) :
    (c.min_interval ≤ (adjust_seq c snaps).current_interval ∧
     (adjust_seq c snaps).current_interval ≤ c.max_interval) ∧
    3 ≤ (adjust_parameters c cpu avg).2.suggested_timeout := by
  constructor
  · induction snaps generalizing c with
    | nil => exact ⟨hlo, hhi⟩
    | cons s rest ih =>
        simp only [adjust_seq]
        have hf := adjust_parameters_fields c s.1 s.2
        have hb := adjust_parameters_interval_bounds c s.1 s.2 hmin0 hmm hk0 hlo hhi
        have hres := ih (adjust_parameters c s.1 s.2).1
          (by rw [hf.1]; exact hmin0)
          (by rw [hf.1, hf.2.1]; exact hmm)
          (by rw [hf.2.2]; exact hk0)
          (by rw [hf.1]; exact hb.1)
          (by rw [hf.2.1]; exact hb.2)
        rw [hf.1, hf.2.1] at hres
        exact hres
  · simp only [adjust_parameters]
    split_ifs <;> linarith

theorem control_parameters_interval_invariant_witness :
    (AdaptiveOCRController.start.min_interval
        ≤ (adjust_seq AdaptiveOCRController.start [(90, 0), (20, 0)]).current_interval ∧
     (adjust_seq AdaptiveOCRController.start [(90, 0), (20, 0)]).current_interval
        ≤ AdaptiveOCRController.start.max_interval) ∧
    3 ≤ (adjust_parameters AdaptiveOCRController.start 50 1).2.suggested_timeout :=
  control_parameters_interval_invariant AdaptiveOCRController.start [(90, 0), (20, 0)] 50 1
    (by norm_num [AdaptiveOCRController.start]) (by norm_num [AdaptiveOCRController.start])
    (by norm_num [AdaptiveOCRController.start]) (by norm_num [AdaptiveOCRController.start])
    (by norm_num [AdaptiveOCRController.start])

/-- C6 counterexample: at a snapshot with `avg_processing_time = 20` the
recommended deadline is 21, which exceeds the only configured maximum
(the controller's `max_interval = 10`): the recommended deadline is not
clamped to any configured range. -/
theorem recommended_deadline_not_bounded :
    (adjust_parameters AdaptiveOCRController.start 50 20).2.suggested_timeout = 21 ∧
    AdaptiveOCRController.start.max_interval < 21 := by
  constructor
  · norm_num [adjust_parameters]
  · norm_num [AdaptiveOCRController.start]

/-! ## batch_ocr (`enhanced_ocr_classes.py`, lines 263-285) -/

/-- Per-item outcome of one `future.result(...)` call in `batch_ocr`:
completed with text, raised `TimeoutError`, or raised another error. -/
inductive ItemOutcome
  | done (text : String)
  | timedOut
  | failed (msg : String)
deriving DecidableEq, Repr

/-- What the `for future in future_to_image` loop appends for one item:
the text on completion, the empty string on a per-item timeout or a
per-item error. -/
def itemResult : ItemOutcome → String
  | ItemOutcome.done t => t
  | ItemOutcome.timedOut => ""
  | ItemOutcome.failed _ => ""

/-- `WorkingFastScreenOCR.batch_ocr` (lines 263-285): an empty input
list short-circuits to `[]`; otherwise the loop collects one result per
submitted future in submission (= input) order, `future_to_image` being
a dict keyed by futures in submission order; `run` gives each image's
outcome. -/
def batch_ocr {α : Type} (run : α → ItemOutcome) (images : List α) : List String :=
  if images.isEmpty then []
  else images.map fun img => itemResult (run img)

/-- C7: `batch_ocr` over n images returns exactly n results in input
order; an empty input gives an empty output; a per-item timeout or
error yields the empty string for that item only, leaving the other
positions intact. -/
theorem batch_ocr_in_order {α : Type} (run : α → ItemOutcome) (images : List α) :
    (batch_ocr run images).length = images.length ∧
    batch_ocr run ([] : List α) = [] ∧
    (∀ i : ℕ, (batch_ocr run images)[i]?
        = (images[i]?).map fun img => itemResult (run img)) ∧
    itemResult ItemOutcome.timedOut = "" ∧
    (∀ e : String, itemResult (ItemOutcome.failed e) = "") := by
  refine ⟨?_, rfl, fun i => ?_, rfl, fun e => rfl⟩
  · unfold batch_ocr
    split_ifs with h
    · rw [List.isEmpty_iff.mp h]
      rfl
    · simp
  · unfold batch_ocr
    split_ifs with h
    · rw [List.isEmpty_iff.mp h]
      simp
    · simp

/-! ## Configuration loading and per-cycle error containment -/

/-- The default system configuration
(`IntegratedDiscordOCRSystem.load_config`, lines 258-270; the fields
the pipeline reads). -/
structure SystemConfig where
  ocr_engine : String
  ocr_timeout : ℚ
  ocr_interval : ℚ
  enable_overlays : Bool
  max_cpu_usage : ℚ
  max_memory_usage : ℚ
deriving DecidableEq, Repr

def default_config : SystemConfig :=
  { ocr_engine := "tesseract", ocr_timeout := 3, ocr_interval := 2,
    enable_overlays := true, max_cpu_usage := 80, max_memory_usage := 1000 }

/-- A parsed user config file: each present key overrides the default
(`default_config.update(user_config)`). -/
structure UserConfig where
  ocr_engine : Option String
  ocr_timeout : Option ℚ
  ocr_interval : Option ℚ
  enable_overlays : Option Bool
  max_cpu_usage : Option ℚ
  max_memory_usage : Option ℚ
deriving DecidableEq, Repr

def updateConfig (d : SystemConfig) (u : UserConfig) : SystemConfig :=
  { ocr_engine := u.ocr_engine.getD d.ocr_engine,
    ocr_timeout := u.ocr_timeout.getD d.ocr_timeout,
    ocr_interval := u.ocr_interval.getD d.ocr_interval,
    enable_overlays := u.enable_overlays.getD d.enable_overlays,
    max_cpu_usage := u.max_cpu_usage.getD d.max_cpu_usage,
    max_memory_usage := u.max_memory_usage.getD d.max_memory_usage }

/-- What reading the config file yielded. -/
inductive ConfigFileRead
  | missing
  | unreadable
  | parsed (u : UserConfig)

/-- `IntegratedDiscordOCRSystem.load_config` (lines 256-280): merge the
file content over the defaults; a missing or unreadable file leaves the
defaults; the function is total and performs no range validation. -/
def load_config : ConfigFileRead → SystemConfig
  | ConfigFileRead.missing => default_config
  | ConfigFileRead.unreadable => default_config
  | ConfigFileRead.parsed u => updateConfig default_config u

/-- What one body of `_main_processing_loop` did, as seen by the
metrics: completed (with the text extracted and the elapsed time), or
raised an exception caught by the `except` clause (lines 626-629). -/
inductive CycleOutcome
  | completed (processing_time : ℚ) (text : String)
  | raised (msg : String)

/-- The metrics update `_main_processing_loop` performs for one cycle:
`success = bool(ocr_text and ocr_text.strip())` on completion (line
585), and `update_ocr_metrics(0, False)` in the except clause. -/
def record_cycle (m : OcrMetrics) : CycleOutcome → OcrMetrics
  | CycleOutcome.completed t txt => update_ocr_metrics m t (txt.trim != "")
  | CycleOutcome.raised _ => update_ocr_metrics m 0 false

/-- C8 (amended): startup configuration loading never fails and never
validates ranges: any parsed interval or timeout value, in range or
not, is taken verbatim, while a missing or unreadable file falls back
to the defaults; and every per-cycle error is contained — the loop's
except clause records a failed cycle into the metrics and continues
instead of terminating. -/
theorem load_config_total_no_validation (u : UserConfig) (m : OcrMetrics) (e : String) :
    (load_config (ConfigFileRead.parsed u)).ocr_interval
        = u.ocr_interval.getD default_config.ocr_interval ∧
    (load_config (ConfigFileRead.parsed u)).ocr_timeout
        = u.ocr_timeout.getD default_config.ocr_timeout ∧
    load_config ConfigFileRead.missing = default_config ∧
    load_config ConfigFileRead.unreadable = default_config ∧
    record_cycle m (CycleOutcome.raised e) = update_ocr_metrics m 0 false :=
  ⟨rfl, rfl, rfl, rfl, rfl⟩

/-- C8 counterexample: a config file carrying `ocr_interval = -5` is
accepted at startup: `load_config` returns a configuration holding the
out-of-range interval instead of refusing to start. -/
theorem load_config_accepts_out_of_range :
    (load_config (ConfigFileRead.parsed
      { ocr_engine := none, ocr_timeout := none, ocr_interval := some (-5),
        enable_overlays := none, max_cpu_usage := none,
        max_memory_usage := none })).ocr_interval = -5 ∧
    (-5 : ℚ) < 0 := by
  constructor
  · rfl
  · norm_num

/-! ## get_performance_stats (`enhanced_ocr_classes.py`, lines 192-201) -/

/-- The counters of `WorkingQuickOCR.performance_stats`. -/
structure PerformanceStats where
  total_calls : ℕ
  successful_calls : ℕ
  timeout_calls : ℕ
  avg_processing_time : ℚ
deriving DecidableEq, Repr

/-- The dict `get_performance_stats` returns: the copied counters plus
the two derived rates. -/
structure PerformanceStatsReport where
  base : PerformanceStats
  success_rate : ℚ
  timeout_rate : ℚ
deriving DecidableEq, Repr

/-- `WorkingQuickOCR.get_performance_stats` (lines 192-201): work on a
copy of the stats dict; add the rates when `total_calls > 0`, else set
both rates to 0. -/
def get_performance_stats (s : PerformanceStats) : PerformanceStatsReport :=
  if s.total_calls > 0 then
    { base := s,
      success_rate := (s.successful_calls : ℚ) / s.total_calls * 100,
      timeout_rate := (s.timeout_calls : ℚ) / s.total_calls * 100 }
  else
    { base := s, success_rate := 0, timeout_rate := 0 }

/-- C10: `get_performance_stats` is total and division-safe: with no
calls recorded both rates are 0; with calls recorded the rates are
`successful/total*100` and `timeouts/total*100`; and the underlying
counters are returned unchanged. -/
theorem get_performance_stats_total_safe (s : PerformanceStats) :
    (get_performance_stats s).base = s ∧
    (s.total_calls = 0 →
      (get_performance_stats s).success_rate = 0 ∧
      (get_performance_stats s).timeout_rate = 0) ∧
    (0 < s.total_calls →
      (get_performance_stats s).success_rate
          = (s.successful_calls : ℚ) / s.total_calls * 100 ∧
      (get_performance_stats s).timeout_rate
          = (s.timeout_calls : ℚ) / s.total_calls * 100) := by
  unfold get_performance_stats
  split_ifs with h
  · exact ⟨rfl, fun h0 => absurd h0 (by omega), fun _ => ⟨rfl, rfl⟩⟩
  · exact ⟨rfl, fun _ => ⟨rfl, rfl⟩, fun h0 => absurd h0 h⟩

theorem get_performance_stats_total_safe_witness :
    (get_performance_stats ⟨0, 0, 0, 0⟩).success_rate = 0 ∧
    (get_performance_stats ⟨4, 3, 1, 0⟩).success_rate
        = ((3 : ℕ) : ℚ) / ((4 : ℕ) : ℚ) * 100 :=
  ⟨((get_performance_stats_total_safe ⟨0, 0, 0, 0⟩).2.1 rfl).1,
   ((get_performance_stats_total_safe ⟨4, 3, 1, 0⟩).2.2 (by norm_num)).1⟩

end DiscordOCR
